import Mathlib

/-!
# Issync: the paginated GraphQL query client

A shallow embedding of `githubapi/graphql.go` (`Client.GetIssues` and the
types it decodes into) together with the parts of the Go standard library it
relies on (`time.Time.Format`, `encoding/json`, `net/http`), followed by the
properties of the client.

Conventions of the embedding:

* Go strings are Lean strings (sequences of Unicode code points).
* Go's `int` is `Int`; where its 64-bit width is observable, in decoding a
  JSON number into `IssueNode.Number` and in the second count that `Format`
  works on, the range is checked or the count wraps explicitly.
* A Go result pair `([]IssueNode, error)` is a pair of a list and an optional
  error; the `nil` slice is the empty list.
* The HTTP client and the service behind it are an explicit state that
  `GetIssues` threads through its calls of `Do`.
* The `for` loop has no bound in the source; the embedding runs it for a given
  number of iterations and reports when that budget is used up before the
  loop returned.
-/

namespace Issync

/-! ## time.Time and the layout used for the search filter -/

/-- A `time.Time`: an instant (`sec` seconds and `nsec` nanoseconds since the
Unix epoch, what `t.Unix()` and `t.Nanosecond()` return) together with
`offset`, the number of seconds east of UTC that the value's location
prescribes at that instant. -/
structure Time where
  sec : Int
  nsec : Nat
  offset : Int
  deriving DecidableEq, Repr

namespace Time

/-- The zero `time.Time`: January 1, year 1, 00:00:00 UTC. -/
def zero : Time := ⟨-62135596800, 0, 0⟩

/-- Method `t.UTC()`: the same instant with the location set to UTC. -/
def UTC (t : Time) : Time := { t with offset := 0 }

/-- Method `t.abs()`: the clock reading in the value's location as the
unsigned 64-bit count of seconds since January 1 of the year -292277022399,
which lies 9223372028715321600 seconds before the Unix epoch. The count
wraps around for the instants outside the 64 bits. (These are the constants
of Go up to 1.22; later releases put the origin 306 days earlier, which
changes the rendering only of instants within 306 days of the wrap.) -/
def abs (t : Time) : Nat :=
  ((t.sec + t.offset + 9223372028715321600) % 18446744073709551616).toNat

/-- The clock reading that `Format` renders, in seconds relative to
1970-01-01T00:00:00 of the value's location. -/
def wall (t : Time) : Int := (t.abs : Int) - 9223372028715321600

/-- Proleptic Gregorian civil date `(year, month, day)` of a day count
relative to 1970-01-01. -/
def civil (days : Int) : Int × Int × Int :=
  let z := days + 719468
  let era := z / 146097
  let doe := z - era * 146097
  let yoe := (doe - doe / 1460 + doe / 36524 - doe / 146096) / 365
  let doy := doe - (365 * yoe + yoe / 4 - yoe / 100)
  let mp := (5 * doy + 2) / 153
  let d := doy - (153 * mp + 2) / 5 + 1
  let m := if mp < 10 then mp + 3 else mp - 9
  let y := yoe + era * 400 + (if m ≤ 2 then 1 else 0)
  (y, m, d)

/-- Function `appendInt` of package time: decimal digits of `x`, left-padded
with zeros to `width`, after a minus sign when `x` is negative. -/
def appendInt (x : Int) (width : Nat) : String :=
  let digits := toString x.natAbs
  let padded := String.mk (List.replicate (width - digits.length) '0') ++ digits
  if x < 0 then "-" ++ padded else padded

/-- The call `t.Format("2006-01-02T15:04:05Z")`. The layout's elements are
`2006` (year, four digits), `01` (month), `02` (day), `15` (hour), `04`
(minute), `05` (second), each two digits, separated by the literal `-`, `T`
and `:`; the final `Z` is not one of the layout's zone elements (`Z07:00`,
`Z0700`, `Z07`), so it is copied as a literal. The fields are those of the
clock reading in the value's own location. -/
def Format (t : Time) : String :=
  let w := t.wall
  let days := w / 86400
  let secs := w % 86400
  let (y, m, d) := civil days
  appendInt y 4 ++ "-" ++ appendInt m 2 ++ "-" ++ appendInt d 2 ++ "T" ++
    appendInt (secs / 3600) 2 ++ ":" ++ appendInt (secs % 3600 / 60) 2 ++ ":" ++
    appendInt (secs % 60) 2 ++ "Z"

end Time

/-- The value of `searchQuery` in `GetIssues`:
`fmt.Sprintf("is:issue is:open project:%s/%d updated:>=%s", owner, projectNumber, since.Format(...))`. -/
def searchQuery (owner : String) (projectNumber : Int) (since : Time) : String :=
  "is:issue is:open project:" ++ owner ++ "/" ++ toString projectNumber ++
    " updated:>=" ++ since.Format

/-! ## encoding/json: what the client sends -/

/-- JSON text written by `json.Marshal`, as a tree; an object lists its
members in the order they are written. -/
inductive Encoded where
  | null
  | string (s : String)
  | object (members : List (String × Encoded))

/-- The values that `GetIssues` stores in the `map[string]interface{}` of a
request: a `string`, or a `*string` (`none` is the nil pointer). -/
inductive Any where
  | string (s : String)
  | stringPtr (p : Option String)
  deriving DecidableEq, Repr

structure GraphQLRequest where
  Query : String
  Variables : List (String × Any)
  deriving DecidableEq, Repr

/-- An underlying Go error: one whose message is known, or an error of the
JSON decoder about a value that does not fit its Go target
(`*json.UnmarshalTypeError`, or the error of `time.Time.UnmarshalJSON`),
whose message is not modelled. -/
inductive Cause where
  | msg (text : String)
  | unmarshal
  deriving DecidableEq, Repr

/-- An error made by `fmt.Errorf`: `plain m` has message `m` and wraps
nothing; `wrap context cause` comes from the format `context + ": %w"` and
wraps `cause`. -/
inductive Error where
  | plain (message : String)
  | wrap (context : String) (cause : Cause)
  deriving DecidableEq, Repr

/-- How `json.Marshal` writes a value stored in the variables map: a string
as a JSON string, a nil pointer as `null`, a non-nil pointer as the string it
points to. -/
def marshalAny : Any → Encoded
  | .string s => .string s
  | .stringPtr none => .null
  | .stringPtr (some s) => .string s

/-- The call `json.Marshal(reqBody)`: the struct's fields in declaration order
under their `json` names, the map's entries sorted by key. None of the types
involved can make `Marshal` fail. -/
def jsonMarshal (r : GraphQLRequest) : Except Cause Encoded :=
  .ok (.object
    [("query", .string r.Query),
     ("variables", .object
        ((r.Variables.insertionSort (fun a b => a.1.toList < b.1.toList)).map
          fun kv => (kv.1, marshalAny kv.2)))])

/-! ## encoding/json: what the client reads -/

/-- A JSON value as the decoder reads it. `int n` is a number literal without
fraction or exponent, of value `n`; `real lit` is any other number literal.
`str s t` is a string literal with contents `s`; `t` is what
`time.Time.UnmarshalJSON` makes of that literal (`none`: it is rejected).
An object lists its members in the order of the text, a repeated name as
often as it occurs. -/
inductive JSON where
  | null
  | bool (b : Bool)
  | int (n : Int)
  | real (lit : String)
  | str (s : String) (t : Option Time)
  | arr (elems : List JSON)
  | obj (members : List (String × JSON))

/-- A response body as `json.NewDecoder(body).Decode` reads it. `invalid e`:
no complete JSON value can be read from the start of the body (a syntax
error, the end of the input, or a failed read) and the decoder reports `e`.
`value v rest`: the body starts with the complete JSON value `v`, and `rest`
is what follows it, which `Decode` does not examine. -/
inductive Body where
  | invalid (e : String)
  | value (v : JSON) (rest : String)

structure PageInfo where
  EndCursor : String
  HasNextPage : Bool
  deriving DecidableEq, Repr

structure IssueNode where
  Number : Int
  Title : String
  Body : String
  UpdatedAt : Time
  deriving DecidableEq, Repr

structure SearchResult where
  Nodes : List IssueNode
  PageInfo : PageInfo
  deriving DecidableEq, Repr

/-- The anonymous struct type of the field `Data` of `GraphQLResponse`. -/
structure GraphQLData where
  Search : SearchResult
  deriving DecidableEq, Repr

structure GraphQLResponse where
  Data : GraphQLData
  deriving DecidableEq, Repr

/-- The fold under which the decoder compares a member name with a field
name: letters `a`..`z` count as `A`..`Z`, and the Kelvin sign and the long s,
the two other characters that Unicode folds onto an ASCII letter, count as
`K` and `S`. -/
def foldRune (c : Char) : Char :=
  if c = Char.ofNat 0x212A then 'K'
  else if c = Char.ofNat 0x17F then 'S'
  else c.toUpper

def foldName (s : String) : List Char := s.toList.map foldRune

/-- Decoding of a JSON object into a struct whose current value is `cur`: the
members are taken in the order of the text, and `setField` stores one member,
given by its folded name and its value, into the struct. A name that occurs
twice is stored twice. -/
def decodeMembers {α : Type} (setField : α → List Char → JSON → Except Cause α) :
    α → List (String × JSON) → Except Cause α
  | cur, [] => .ok cur
  | cur, kv :: ms => do
    let next ← setField cur (foldName kv.1) kv.2
    decodeMembers setField next ms

/-- A JSON value into a Go `string` that holds `cur`: `null` leaves it
untouched. -/
def decodeString (cur : String) : JSON → Except Cause String
  | .null => .ok cur
  | .str s _ => .ok s
  | _ => .error .unmarshal

/-- A JSON value into a Go `bool` that holds `cur`. -/
def decodeBool (cur : Bool) : JSON → Except Cause Bool
  | .null => .ok cur
  | .bool b => .ok b
  | _ => .error .unmarshal

/-- A JSON value into a Go `int` (64 bits) that holds `cur`: the literal must
be an integer literal within range. -/
def decodeInt (cur : Int) : JSON → Except Cause Int
  | .null => .ok cur
  | .int n =>
    if -9223372036854775808 ≤ n ∧ n ≤ 9223372036854775807 then .ok n else .error .unmarshal
  | _ => .error .unmarshal

/-- A JSON value into a `time.Time` that holds `cur`, through its
`UnmarshalJSON`. -/
def decodeTime (cur : Time) : JSON → Except Cause Time
  | .null => .ok cur
  | .str _ (some t) => .ok t
  | _ => .error .unmarshal

/-- One member of a JSON object into a `PageInfo`; a member that matches no
field is skipped. -/
def PageInfo.setField (p : PageInfo) (name : List Char) (v : JSON) : Except Cause PageInfo :=
  if name = foldName "endCursor" then do
    let endCursor ← decodeString p.EndCursor v
    pure { p with EndCursor := endCursor }
  else if name = foldName "hasNextPage" then do
    let hasNextPage ← decodeBool p.HasNextPage v
    pure { p with HasNextPage := hasNextPage }
  else .ok p

/-- A JSON value into a `PageInfo` that holds `cur`. -/
def decodePageInfo (cur : PageInfo) : JSON → Except Cause PageInfo
  | .null => .ok cur
  | .obj ms => decodeMembers PageInfo.setField cur ms
  | _ => .error .unmarshal

/-- One member of a JSON object into an `IssueNode`. -/
def IssueNode.setField (n : IssueNode) (name : List Char) (v : JSON) : Except Cause IssueNode :=
  if name = foldName "number" then do
    let number ← decodeInt n.Number v
    pure { n with Number := number }
  else if name = foldName "title" then do
    let title ← decodeString n.Title v
    pure { n with Title := title }
  else if name = foldName "body" then do
    let body ← decodeString n.Body v
    pure { n with Body := body }
  else if name = foldName "updatedAt" then do
    let updatedAt ← decodeTime n.UpdatedAt v
    pure { n with UpdatedAt := updatedAt }
  else .ok n

/-- A JSON value into an `IssueNode` that holds `cur`. -/
def decodeIssueNode (cur : IssueNode) : JSON → Except Cause IssueNode
  | .null => .ok cur
  | .obj ms => decodeMembers IssueNode.setField cur ms
  | _ => .error .unmarshal

/-- The zero `IssueNode`. -/
def IssueNode.zero : IssueNode := ⟨0, "", "", Time.zero⟩

/-- The elements of a JSON array into the slots of a slice's backing array,
from slot 0 on: each element is decoded into what its slot holds (`slots`
lists the slots that hold something; every further slot is zero). -/
def decodeElems : List JSON → List IssueNode → Except Cause (List IssueNode)
  | [], _ => .ok []
  | v :: vs, slots => do
    let n ← decodeIssueNode (slots.headD IssueNode.zero) v
    let ns ← decodeElems vs slots.tail
    pure (n :: ns)

/-- A JSON value into a `[]IssueNode`. The slice is given by its elements
`cur.1` and by `cur.2`, what an earlier, longer array left in its backing
array behind them. `null` and the empty array give a slice without backing
array; a non-empty array is decoded slot by slot into the backing array, and
the slice is cut to the length of the array. -/
def decodeNodes (cur : List IssueNode × List IssueNode) :
    JSON → Except Cause (List IssueNode × List IssueNode)
  | .null => .ok ([], [])
  | .arr [] => .ok ([], [])
  | .arr vs => do
    let ns ← decodeElems vs (cur.1 ++ cur.2)
    pure (ns, (cur.1 ++ cur.2).drop vs.length)
  | _ => .error .unmarshal

/-- One member of a JSON object into a `SearchResult`; `cur.2` is what the
backing array of `Nodes` holds behind the elements of `Nodes`. -/
def SearchResult.setField (cur : SearchResult × List IssueNode) (name : List Char) (v : JSON) :
    Except Cause (SearchResult × List IssueNode) :=
  if name = foldName "nodes" then do
    let nodes ← decodeNodes (cur.1.Nodes, cur.2) v
    pure ({ cur.1 with Nodes := nodes.1 }, nodes.2)
  else if name = foldName "pageInfo" then do
    let pageInfo ← decodePageInfo cur.1.PageInfo v
    pure ({ cur.1 with PageInfo := pageInfo }, cur.2)
  else .ok cur

def decodeSearchResult (cur : SearchResult × List IssueNode) :
    JSON → Except Cause (SearchResult × List IssueNode)
  | .null => .ok cur
  | .obj ms => decodeMembers SearchResult.setField cur ms
  | _ => .error .unmarshal

def GraphQLData.setField (cur : GraphQLData × List IssueNode) (name : List Char) (v : JSON) :
    Except Cause (GraphQLData × List IssueNode) :=
  if name = foldName "search" then do
    let search ← decodeSearchResult (cur.1.Search, cur.2) v
    pure ({ cur.1 with Search := search.1 }, search.2)
  else .ok cur

def decodeData (cur : GraphQLData × List IssueNode) :
    JSON → Except Cause (GraphQLData × List IssueNode)
  | .null => .ok cur
  | .obj ms => decodeMembers GraphQLData.setField cur ms
  | _ => .error .unmarshal

def GraphQLResponse.setField (cur : GraphQLResponse × List IssueNode) (name : List Char)
    (v : JSON) : Except Cause (GraphQLResponse × List IssueNode) :=
  if name = foldName "data" then do
    let data ← decodeData (cur.1.Data, cur.2) v
    pure ({ cur.1 with Data := data.1 }, data.2)
  else .ok cur

/-- A JSON value into a `GraphQLResponse` that holds `cur.1`. Members that
match no field are skipped, `null` leaves a value in place, a member is
decoded into what its field holds at that point, and a value of the wrong
JSON kind for its target is an error. -/
def decodeGraphQLResponse (cur : GraphQLResponse × List IssueNode) :
    JSON → Except Cause (GraphQLResponse × List IssueNode)
  | .null => .ok cur
  | .obj ms => decodeMembers GraphQLResponse.setField cur ms
  | _ => .error .unmarshal

/-- The zero `GraphQLResponse`, the value of a fresh `var graphqlResponse`. -/
def GraphQLResponse.zero : GraphQLResponse := ⟨⟨⟨[], ⟨"", false⟩⟩⟩⟩

/-- The call `json.NewDecoder(resp.Body).Decode(&graphqlResponse)` on a zero
`graphqlResponse`. -/
def jsonDecode : Body → Except Cause GraphQLResponse
  | .invalid e => .error (.msg e)
  | .value v _ => do
    let r ← decodeGraphQLResponse (GraphQLResponse.zero, []) v
    pure r.1

/-! ## net/http -/

/-- A `context.Context` as `GetIssues` sees it: the nil interface value, or a
context. What a cancelled context or an expired deadline does to a call of
`Do` is part of the behaviour of the HTTP client. -/
inductive Context where
  | nil
  | live
  deriving DecidableEq, Repr

structure Request where
  Method : String
  URL : String
  Header : List (String × String)
  Body : Encoded

structure Response where
  StatusCode : Int
  Status : String
  Body : Body

/-- Method `Header.Set`: the entry for `key` is replaced by the single value
`value`. Both keys used by `GetIssues` are already in canonical form. -/
def Header.Set (h : List (String × String)) (key value : String) : List (String × String) :=
  h.filter (fun kv => kv.1 != key) ++ [(key, value)]

/-- The call `http.NewRequestWithContext(ctx, method, url, body)` for a valid
method and a URL that parses, as the two constants of `GetIssues` are: it
fails exactly on a nil context, and otherwise returns a request without
headers. -/
def NewRequestWithContext (ctx : Context) (method url : String) (body : Encoded) :
    Except Cause Request :=
  match ctx with
  | .nil => .error (.msg "net/http: nil Context")
  | .live => .ok ⟨method, url, [], body⟩

/-! ## githubapi -/

def getIssuesQuery : String := "
query($searchQuery: String!, $cursor: String) \x7b
  search(query: $searchQuery, type: ISSUE, first: 100, after: $cursor) \x7b
    nodes \x7b
      ... on Issue \x7b
        number
        title
        body
        updatedAt
      \x7d
    \x7d
    pageInfo \x7b
      endCursor
      hasNextPage
    \x7d
  \x7d
\x7d
"

/-- The client. `httpClient` is the method `Do` of the `*http.Client`
together with the network behind it: from the state `σ` of that world and a
request it gives the response or the error, and the next state. -/
structure Client (σ : Type) where
  httpClient : σ → Request → Except Cause Response × σ
  token : String

/-- The result of running `GetIssues`: `returned` is the pair the call
returned (`none` when the loop had not returned within the given number of
iterations), `net` the state in which it left the HTTP client's world. -/
structure Run (σ : Type) where
  returned : Option (List IssueNode × Option Error)
  net : σ

/-- The `for` loop of `GetIssues`, run for at most `fuel` iterations from the
state `s` of the HTTP client's world and the values `allIssues` and `cursor`
of the two local variables. The deferred `resp.Body.Close()` has no part in
what the call returns or sends and is left out. -/
def GetIssues.loop {σ : Type} (c : Client σ) (ctx : Context) (owner : String)
    (projectNumber : Int) (since : Time) :
    Nat → σ → List IssueNode → Option String → Run σ
  | 0, s, _, _ => ⟨none, s⟩
  | fuel + 1, s, allIssues, cursor =>
    let searchQuery := searchQuery owner projectNumber since
    let reqBody : GraphQLRequest :=
      { Query := getIssuesQuery
        Variables := [("searchQuery", .string searchQuery), ("cursor", .stringPtr cursor)] }
    match jsonMarshal reqBody with
    | .error err => ⟨some ([], some (.wrap "failed to marshal graphQL request" err)), s⟩
    | .ok reqBytes =>
      match NewRequestWithContext ctx "POST" "https://api.github.com/graphql" reqBytes with
      | .error err => ⟨some ([], some (.wrap "failed to create http request" err)), s⟩
      | .ok req =>
        let req := { req with Header := Header.Set req.Header "Authorization" ("bearer " ++ c.token) }
        let req := { req with Header := Header.Set req.Header "Content-Type" "application/json" }
        match c.httpClient s req with
        | (.error err, s) => ⟨some ([], some (.wrap "failed to execute http request" err)), s⟩
        | (.ok resp, s) =>
          if resp.StatusCode ≠ 200 then
            ⟨some ([], some (.plain ("github api returned non-200 status: " ++ resp.Status))), s⟩
          else
            match jsonDecode resp.Body with
            | .error err => ⟨some ([], some (.wrap "failed to decode graphQL response" err)), s⟩
            | .ok graphqlResponse =>
              let allIssues := allIssues ++ graphqlResponse.Data.Search.Nodes
              if !graphqlResponse.Data.Search.PageInfo.HasNextPage then
                ⟨some (allIssues, none), s⟩
              else
                GetIssues.loop c ctx owner projectNumber since fuel s allIssues
                  (some graphqlResponse.Data.Search.PageInfo.EndCursor)

/-- Method `Client.GetIssues`, run for at most `fuel` iterations of its loop
from the state `s` of the HTTP client's world. -/
def Client.GetIssues {σ : Type} (c : Client σ) (fuel : Nat) (s : σ) (ctx : Context)
    (owner : String) (projectNumber : Int) (since : Time) : Run σ :=
  GetIssues.loop c ctx owner projectNumber since fuel s [] none

/-! ## A scripted service -/

/-- The world of an HTTP client whose service answers from a script: the
outcome of the call number `k` of `Do` (counting from 0) is `script k`, and
`sent` records the requests received so far, oldest first. Every run of the
client against a deterministic service is a run against such a script. -/
structure Net where
  script : Nat → Except Cause Response
  sent : List Request

def Net.Do (n : Net) (req : Request) : Except Cause Response × Net :=
  (n.script n.sent.length, { n with sent := n.sent ++ [req] })

/-- The world before any request was sent. -/
def Net.start (script : Nat → Except Cause Response) : Net := ⟨script, []⟩

/-- A client with the given token whose HTTP client talks to a scripted
service. -/
def scripted (token : String) : Client Net := ⟨Net.Do, token⟩

/-- The member `name` of an encoded JSON object. -/
def Encoded.get (e : Encoded) (name : String) : Option Encoded :=
  match e with
  | .object ms => (ms.find? fun kv => kv.1 == name).map Prod.snd
  | _ => none

/-- The value that the body of a request gives to the query variable `name`:
the member `name` of the member `variables`. -/
def Request.variable (req : Request) (name : String) : Option Encoded :=
  (req.Body.get "variables").bind fun vars => vars.get name

deriving instance DecidableEq for Except

/-! ## JSON kinds and the shape of a response -/

/-- The body as a whole is one JSON text: a JSON value followed by nothing but
white space. -/
def Body.wellFormed : Body → Bool
  | .invalid _ => false
  | .value _ rest => rest.toList.all Char.isWhitespace

def JSON.isNull : JSON → Bool
  | .null => true
  | _ => false

def JSON.isObject : JSON → Bool
  | .obj _ => true
  | _ => false

def JSON.isArray : JSON → Bool
  | .arr _ => true
  | _ => false

def JSON.isString : JSON → Bool
  | .str _ _ => true
  | _ => false

def JSON.isBool : JSON → Bool
  | .bool _ => true
  | _ => false

/-- The value is an integer literal that fits a 64-bit `int`. -/
def JSON.isInt64 : JSON → Bool
  | .int n => -9223372036854775808 ≤ n && n ≤ 9223372036854775807
  | _ => false

/-- The value is a string that `time.Time` accepts as a timestamp. -/
def JSON.isTimestamp : JSON → Bool
  | .str _ (some _) => true
  | _ => false

/-- The value `v` is not of the kind that `kind` recognises, and is not
`null` either. -/
def JSON.clashes (kind : JSON → Bool) (v : JSON) : Bool := !(v.isNull || kind v)

/-- A member named `name` (folded) with value `v` of a `pageInfo` object is of
the wrong kind: an `endCursor` that is not a string, or a `hasNextPage` that
is not a boolean. -/
def pageInfoMemberClash (name : List Char) (v : JSON) : Bool :=
  (name == foldName "endCursor" && v.clashes JSON.isString) ||
    (name == foldName "hasNextPage" && v.clashes JSON.isBool)

/-- A value at the place of `pageInfo` is of the wrong kind: it is neither an
object nor `null`, or it is an object with a member of the wrong kind. -/
def pageInfoClash : JSON → Bool
  | .null => false
  | .obj ms => ms.any fun kv => pageInfoMemberClash (foldName kv.1) kv.2
  | _ => true

/-- A member of an issue object is of the wrong kind: a `number` that is not
an integer literal of 64 bits, a `title` or `body` that is not a string, or an
`updatedAt` that is not a timestamp string. -/
def nodeMemberClash (name : List Char) (v : JSON) : Bool :=
  (name == foldName "number" && v.clashes JSON.isInt64) ||
    (name == foldName "title" && v.clashes JSON.isString) ||
    (name == foldName "body" && v.clashes JSON.isString) ||
    (name == foldName "updatedAt" && v.clashes JSON.isTimestamp)

/-- An element of `nodes` is of the wrong kind: it is neither an object nor
`null`, or it is an object with a member of the wrong kind. -/
def nodeClash : JSON → Bool
  | .null => false
  | .obj ms => ms.any fun kv => nodeMemberClash (foldName kv.1) kv.2
  | _ => true

/-- A value at the place of `nodes` is of the wrong kind: it is neither an
array nor `null`, or it is an array with an element of the wrong kind. -/
def nodesClash : JSON → Bool
  | .null => false
  | .arr vs => vs.any nodeClash
  | _ => true

def searchMemberClash (name : List Char) (v : JSON) : Bool :=
  (name == foldName "nodes" && nodesClash v) ||
    (name == foldName "pageInfo" && pageInfoClash v)

/-- A value at the place of `search` is of the wrong kind. -/
def searchClash : JSON → Bool
  | .null => false
  | .obj ms => ms.any fun kv => searchMemberClash (foldName kv.1) kv.2
  | _ => true

/-- A value at the place of `data` is of the wrong kind. -/
def dataClash : JSON → Bool
  | .null => false
  | .obj ms => ms.any fun kv => (foldName kv.1 == foldName "search" && searchClash kv.2)
  | _ => true

/-- Whether a response value holds, at a place of the shape
`data.search.(nodes[](number, title, body, updatedAt), pageInfo(endCursor, hasNextPage))`,
a value of the wrong kind: one that is not `null` and is not an object where
the shape has an object (the value itself, `data`, `search`, `pageInfo`, an
element of `nodes`), not an array at `nodes`, not a string at `title`, `body`
or `endCursor`, not a boolean at `hasNextPage`, not an integer literal of 64
bits at `number`, not a timestamp string at `updatedAt`. Every occurrence
of a repeated name counts; a member that is absent is no clash, and neither
is a member whose name matches no field. -/
def shapeClash : JSON → Bool
  | .null => false
  | .obj ms => ms.any fun kv => (foldName kv.1 == foldName "data" && dataClash kv.2)
  | _ => true

/-! ## Example data -/

/-- The script that answers the first calls of `Do` with the outcomes `rs` and
refuses every later call. -/
def scriptOf (rs : List (Except Cause Response)) : Nat → Except Cause Response :=
  fun k => rs.getD k (.error (.msg "connection refused"))

/-- An issue as the service sends it. -/
def issueJSON (number : Int) : JSON :=
  .obj [("number", .int number), ("title", .str "Fix sync" none), ("body", .str "" none),
    ("updatedAt", .str "2023-05-01T10:00:00Z" (some ⟨1682935200, 0, 0⟩))]

/-- The issue that `issueJSON number` decodes to. -/
def issueNode (number : Int) : IssueNode := ⟨number, "Fix sync", "", ⟨1682935200, 0, 0⟩⟩

/-- A response value of the expected shape. -/
def pageJSON (nodes : List JSON) (endCursor : String) (hasNextPage : Bool) : JSON :=
  .obj [("data", .obj [("search", .obj
    [("nodes", .arr nodes),
     ("pageInfo", .obj [("endCursor", .str endCursor none), ("hasNextPage", .bool hasNextPage)])])])]

/-- A response with status 200 whose body is exactly the given value. -/
def okResponse (v : JSON) : Except Cause Response := .ok ⟨200, "200 OK", .value v ""⟩

/-- A first page of 100 issues that announces a next page. -/
def firstPage : GraphQLResponse :=
  ⟨⟨⟨List.replicate 100 (issueNode 1), ⟨"Y3Vyc29yOjEwMA==", true⟩⟩⟩⟩

def firstPageJSON : JSON := pageJSON (List.replicate 100 (issueJSON 1)) "Y3Vyc29yOjEwMA==" true

/-- A last page of 3 issues. -/
def lastPage : GraphQLResponse :=
  ⟨⟨⟨List.replicate 3 (issueNode 2), ⟨"Y3Vyc29yOjEwMw==", false⟩⟩⟩⟩

def lastPageJSON : JSON := pageJSON (List.replicate 3 (issueJSON 2)) "Y3Vyc29yOjEwMw==" false

/-- A response value whose `nodes` holds a number where an issue belongs. -/
def numberAsNodeJSON : JSON :=
  .obj [("data", .obj [("search", .obj [("nodes", .arr [.int 5])])])]

/-- The instant 2023-01-01T00:00:00Z, in UTC. -/
def newYearUTC : Time := ⟨1672531200, 0, 0⟩

/-! ## Vocabulary for runs against a scripted service -/

/-- The request that one iteration of the loop hands to `Do`, for the token
`token`, the search filter `sq` and the value `cursor` of the loop's cursor
variable. -/
def requestFor (token sq : String) (cursor : Option String) : Request :=
  { Method := "POST"
    URL := "https://api.github.com/graphql"
    Header := [("Authorization", "bearer " ++ token), ("Content-Type", "application/json")]
    Body := .object
      [("query", .string getIssuesQuery),
       ("variables", .object
          [("cursor", marshalAny (.stringPtr cursor)), ("searchQuery", .string sq)])] }

/-- The world after one more request. -/
def Net.after (n : Net) (req : Request) : Net := ⟨n.script, n.sent ++ [req]⟩

/-- The outcome `resp` of a call of `Do` is a response with status 200 whose
body decodes to the page `r`. -/
def Delivers (resp : Except Cause Response) (r : GraphQLResponse) : Prop :=
  ∃ st b, resp = .ok ⟨200, st, b⟩ ∧ jsonDecode b = .ok r

/-- From call number `k` on, the script delivers the pages `pages` in order,
and each of them reports `hasNextPage = true`. -/
def ServesMore (script : Nat → Except Cause Response) (k : Nat)
    (pages : List GraphQLResponse) : Prop :=
  ∀ i p, pages[i]? = some p →
    Delivers (script (k + i)) p ∧ p.Data.Search.PageInfo.HasNextPage = true

/-- The node lists of the pages, one after the other. -/
def nodesOf (pages : List GraphQLResponse) : List IssueNode :=
  pages.flatMap fun p => p.Data.Search.Nodes

/-- The requests that fetch the pages `pages`, the first with cursor `cur`. -/
def requestsFor (token sq : String) : Option String → List GraphQLResponse → List Request
  | _, [] => []
  | cur, p :: ps =>
    requestFor token sq cur :: requestsFor token sq (some p.Data.Search.PageInfo.EndCursor) ps

/-- The cursor variable after the pages `pages` were fetched. -/
def cursorAfter : Option String → List GraphQLResponse → Option String
  | cur, [] => cur
  | _, p :: ps => cursorAfter (some p.Data.Search.PageInfo.EndCursor) ps

/-- The world in which the request number `pages.length` is sent: the pages
`pages` have been fetched. -/
def Net.fetched (script : Nat → Except Cause Response) (token sq : String)
    (pages : List GraphQLResponse) : Net :=
  ⟨script, requestsFor token sq none pages⟩

/-- The requests `reqs` are what the loop sends from call number `k` and
cursor `cur` on: each is the request for the current cursor, and a request is
followed by another one only after a response with status 200 whose body
decoded, with the `endCursor` of that body as the cursor. -/
def Chain (token sq : String) (script : Nat → Except Cause Response) :
    Nat → Option String → List Request → Prop
  | _, _, [] => True
  | k, cur, req :: rest =>
    req = requestFor token sq cur ∧
      (rest = [] ∨ ∃ st b r, script k = .ok ⟨200, st, b⟩ ∧ jsonDecode b = .ok r ∧
        Chain token sq script (k + 1) (some r.Data.Search.PageInfo.EndCursor) rest)

/-! ## One iteration against a scripted service -/

theorem loop_zero {σ : Type} (c : Client σ) (ctx : Context) (owner : String) (pn : Int)
    (since : Time) (s : σ) (acc : List IssueNode) (cur : Option String) :
    GetIssues.loop c ctx owner pn since 0 s acc cur = ⟨none, s⟩ := rfl

theorem loop_nil {σ : Type} (c : Client σ) (owner : String) (pn : Int)
    (since : Time) (fuel : Nat) (s : σ) (acc : List IssueNode) (cur : Option String) :
    GetIssues.loop c .nil owner pn since (fuel + 1) s acc cur =
      ⟨some ([], some (.wrap "failed to create http request" (.msg "net/http: nil Context"))), s⟩ := rfl

theorem loop_succ (token owner : String) (pn : Int) (since : Time) (fuel : Nat) (n : Net)
    (acc : List IssueNode) (cur : Option String) :
    GetIssues.loop (scripted token) .live owner pn since (fuel + 1) n acc cur =
      (match n.script n.sent.length with
       | .error err =>
         ⟨some ([], some (.wrap "failed to execute http request" err)),
           n.after (requestFor token (searchQuery owner pn since) cur)⟩
       | .ok resp =>
         if resp.StatusCode ≠ 200 then
           ⟨some ([], some (.plain ("github api returned non-200 status: " ++ resp.Status))),
             n.after (requestFor token (searchQuery owner pn since) cur)⟩
         else
           match jsonDecode resp.Body with
           | .error err =>
             ⟨some ([], some (.wrap "failed to decode graphQL response" err)),
               n.after (requestFor token (searchQuery owner pn since) cur)⟩
           | .ok r =>
             if !r.Data.Search.PageInfo.HasNextPage then
               ⟨some (acc ++ r.Data.Search.Nodes, none),
                 n.after (requestFor token (searchQuery owner pn since) cur)⟩
             else
               GetIssues.loop (scripted token) .live owner pn since fuel
                 (n.after (requestFor token (searchQuery owner pn since) cur))
                 (acc ++ r.Data.Search.Nodes) (some r.Data.Search.PageInfo.EndCursor)) := by
  have hsort : List.insertionSort (fun a b : String × Any => a.1.toList < b.1.toList)
      [("searchQuery", Any.string (searchQuery owner pn since)), ("cursor", Any.stringPtr cur)] =
      [("cursor", Any.stringPtr cur), ("searchQuery", Any.string (searchQuery owner pn since))] := by
    have h1 : ¬ ("searchQuery".toList < "cursor".toList) := by decide
    simp only [List.insertionSort, List.foldr, List.orderedInsert, h1, if_false]
  have hne : ("Authorization" != "Content-Type") = true := by decide
  rw [GetIssues.loop]
  simp only [jsonMarshal, hsort, NewRequestWithContext, Header.Set, scripted, Net.Do,
    List.filter, List.nil_append, List.cons_append, hne, List.map]
  cases h : n.script n.sent.length <;> rfl

/-! ## Chains of pages -/

theorem requestsFor_length (token sq : String) (cur : Option String)
    (pages : List GraphQLResponse) : (requestsFor token sq cur pages).length = pages.length := by
  induction pages generalizing cur with
  | nil => rfl
  | cons p ps ih => simp [requestsFor, ih]

theorem servesMore_tail {script : Nat → Except Cause Response} {k : Nat} {p : GraphQLResponse}
    {ps : List GraphQLResponse} (h : ServesMore script k (p :: ps)) :
    ServesMore script (k + 1) ps := by
  intro i q hq
  have := h (i + 1) q (by simpa using hq)
  rwa [show k + 1 + i = k + (i + 1) by omega]

theorem servesMore_head {script : Nat → Except Cause Response} {k : Nat} {p : GraphQLResponse}
    {ps : List GraphQLResponse} (h : ServesMore script k (p :: ps)) :
    Delivers (script k) p ∧ p.Data.Search.PageInfo.HasNextPage = true := by
  simpa using h 0 p (by simp)

/-- One iteration on a delivered page that announces a next page. -/
theorem loop_more (token owner : String) (pn : Int) (since : Time) (fuel : Nat) (n : Net)
    (acc : List IssueNode) (cur : Option String) (r : GraphQLResponse)
    (hd : Delivers (n.script n.sent.length) r)
    (hn : r.Data.Search.PageInfo.HasNextPage = true) :
    GetIssues.loop (scripted token) .live owner pn since (fuel + 1) n acc cur =
      GetIssues.loop (scripted token) .live owner pn since fuel
        (n.after (requestFor token (searchQuery owner pn since) cur))
        (acc ++ r.Data.Search.Nodes) (some r.Data.Search.PageInfo.EndCursor) := by
  obtain ⟨st, b, hs, hb⟩ := hd
  rw [loop_succ, hs]
  simp [hb, hn]

/-- One iteration on a delivered page that announces no next page. -/
theorem loop_last (token owner : String) (pn : Int) (since : Time) (fuel : Nat) (n : Net)
    (acc : List IssueNode) (cur : Option String) (r : GraphQLResponse)
    (hd : Delivers (n.script n.sent.length) r)
    (hn : r.Data.Search.PageInfo.HasNextPage = false) :
    GetIssues.loop (scripted token) .live owner pn since (fuel + 1) n acc cur =
      ⟨some (acc ++ r.Data.Search.Nodes, none),
        n.after (requestFor token (searchQuery owner pn since) cur)⟩ := by
  obtain ⟨st, b, hs, hb⟩ := hd
  rw [loop_succ, hs]
  simp [hb, hn]

/-- Fetching a chain of pages that all announce a next page takes one
iteration per page and leaves the loop with their nodes accumulated and the
cursor of the last of them. -/
theorem loop_pages (token owner : String) (pn : Int) (since : Time) (fuel : Nat)
    (pages : List GraphQLResponse) (n : Net) (acc : List IssueNode) (cur : Option String)
    (h : ServesMore n.script n.sent.length pages) :
    GetIssues.loop (scripted token) .live owner pn since (pages.length + fuel) n acc cur =
      GetIssues.loop (scripted token) .live owner pn since fuel
        ⟨n.script, n.sent ++ requestsFor token (searchQuery owner pn since) cur pages⟩
        (acc ++ nodesOf pages) (cursorAfter cur pages) := by
  induction pages generalizing n acc cur with
  | nil => simp [requestsFor, nodesOf, cursorAfter]
  | cons p ps ih =>
    have hp := servesMore_head h
    rw [show (p :: ps).length + fuel = (ps.length + fuel) + 1 by simp; omega]
    rw [loop_more token owner pn since _ n acc cur p hp.1 hp.2]
    rw [ih]
    · simp [Net.after, requestsFor, nodesOf, cursorAfter]
    · simpa [Net.after] using servesMore_tail h

theorem fetched_length (script : Nat → Except Cause Response) (token sq : String)
    (pages : List GraphQLResponse) :
    (Net.fetched script token sq pages).sent.length = pages.length := by
  simp [Net.fetched, requestsFor_length]

/-- After a chain of pages that all announce a next page, a call of
`GetIssues` stands at the iteration for the next request. -/
theorem GetIssues_after_pages (token owner : String) (pn : Int) (since : Time) (fuel : Nat)
    (script : Nat → Except Cause Response) (pages : List GraphQLResponse)
    (h : ServesMore script 0 pages) :
    (scripted token).GetIssues (pages.length + fuel) (Net.start script) .live owner pn since =
      GetIssues.loop (scripted token) .live owner pn since fuel
        (Net.fetched script token (searchQuery owner pn since) pages)
        (nodesOf pages) (cursorAfter none pages) := by
  have := loop_pages token owner pn since fuel pages (Net.start script) [] none
    (by simpa [Net.start] using h)
  simpa [Client.GetIssues, Net.start, Net.fetched] using this

/-- The outcome of the iteration that follows a chain of pages, by the answer
to its request. -/
theorem GetIssues_next (token owner : String) (pn : Int) (since : Time) (fuel : Nat)
    (script : Nat → Except Cause Response) (pages : List GraphQLResponse)
    (h : ServesMore script 0 pages) :
    (scripted token).GetIssues (pages.length + (fuel + 1)) (Net.start script) .live owner pn since =
      (match script pages.length with
       | .error err =>
         ⟨some ([], some (.wrap "failed to execute http request" err)),
           (Net.fetched script token (searchQuery owner pn since) pages).after
             (requestFor token (searchQuery owner pn since) (cursorAfter none pages))⟩
       | .ok resp =>
         if resp.StatusCode ≠ 200 then
           ⟨some ([], some (.plain ("github api returned non-200 status: " ++ resp.Status))),
             (Net.fetched script token (searchQuery owner pn since) pages).after
               (requestFor token (searchQuery owner pn since) (cursorAfter none pages))⟩
         else
           match jsonDecode resp.Body with
           | .error err =>
             ⟨some ([], some (.wrap "failed to decode graphQL response" err)),
               (Net.fetched script token (searchQuery owner pn since) pages).after
                 (requestFor token (searchQuery owner pn since) (cursorAfter none pages))⟩
           | .ok r =>
             if !r.Data.Search.PageInfo.HasNextPage then
               ⟨some (nodesOf pages ++ r.Data.Search.Nodes, none),
                 (Net.fetched script token (searchQuery owner pn since) pages).after
                   (requestFor token (searchQuery owner pn since) (cursorAfter none pages))⟩
             else
               GetIssues.loop (scripted token) .live owner pn since fuel
                 ((Net.fetched script token (searchQuery owner pn since) pages).after
                   (requestFor token (searchQuery owner pn since) (cursorAfter none pages)))
                 (nodesOf pages ++ r.Data.Search.Nodes)
                 (some r.Data.Search.PageInfo.EndCursor)) := by
  rw [GetIssues_after_pages token owner pn since (fuel + 1) script pages h, loop_succ,
    fetched_length]
  rfl

theorem after_length (n : Net) (req : Request) : (n.after req).sent.length = n.sent.length + 1 := by
  simp [Net.after]

theorem nodesOf_append (ps qs : List GraphQLResponse) : nodesOf (ps ++ qs) = nodesOf ps ++ nodesOf qs := by
  simp [nodesOf]

theorem nodesOf_singleton (p : GraphQLResponse) : nodesOf [p] = p.Data.Search.Nodes := by
  simp [nodesOf]

/-! ## The requests of a run -/

theorem chain_single (token sq : String) (script : Nat → Except Cause Response) (k : Nat)
    (cur : Option String) : Chain token sq script k cur [requestFor token sq cur] := by
  simp [Chain]

/-- Whatever the service answers, the loop leaves the script alone and
extends the record of requests by a chain. -/
theorem loop_trace (token owner : String) (pn : Int) (since : Time) (ctx : Context) (fuel : Nat)
    (n : Net) (acc : List IssueNode) (cur : Option String) :
    ∃ reqs, (GetIssues.loop (scripted token) ctx owner pn since fuel n acc cur).net =
        ⟨n.script, n.sent ++ reqs⟩ ∧
      Chain token (searchQuery owner pn since) n.script n.sent.length cur reqs := by
  induction fuel generalizing n acc cur with
  | zero => exact ⟨[], by simp [loop_zero], trivial⟩
  | succ fuel ih =>
    cases ctx with
    | nil => exact ⟨[], by simp [loop_nil], trivial⟩
    | live =>
      rw [loop_succ]
      cases hs : n.script n.sent.length with
      | error err => exact ⟨[_], rfl, chain_single _ _ _ _ _⟩
      | ok resp =>
        by_cases hc : resp.StatusCode = 200
        · cases hb : jsonDecode resp.Body with
          | error err => exact ⟨[_], by simp [hc, hb, Net.after], chain_single _ _ _ _ _⟩
          | ok r =>
            by_cases hn : r.Data.Search.PageInfo.HasNextPage = true
            · obtain ⟨reqs, hnet, hchain⟩ :=
                ih (n.after (requestFor token (searchQuery owner pn since) cur))
                  (acc ++ r.Data.Search.Nodes) (some r.Data.Search.PageInfo.EndCursor)
              refine ⟨requestFor token (searchQuery owner pn since) cur :: reqs, ?_, rfl, ?_⟩
              · simp only [Net.after] at hnet
                simp [hc, hb, hn, hnet, Net.after]
              · right
                refine ⟨resp.Status, resp.Body, r, ?_, hb, ?_⟩
                · cases resp
                  simp_all
                · simpa [Net.after] using hchain
            · exact ⟨[_], by simp [hc, hb, hn, Net.after], chain_single _ _ _ _ _⟩
        · exact ⟨[_], by simp [hc, Net.after], chain_single _ _ _ _ _⟩

theorem chain_head {token sq : String} {script : Nat → Except Cause Response} {k : Nat}
    {cur : Option String} {reqs : List Request} (h : Chain token sq script k cur reqs)
    (req : Request) (hreq : reqs[0]? = some req) : req = requestFor token sq cur := by
  cases reqs with
  | nil => simp at hreq
  | cons a rest =>
    simp at hreq
    subst hreq
    exact h.1

theorem chain_next {token sq : String} {script : Nat → Except Cause Response} {k : Nat}
    {cur : Option String} {reqs : List Request} (h : Chain token sq script k cur reqs)
    (j : Nat) (req : Request) (hreq : reqs[j + 1]? = some req) :
    ∃ st b r, script (k + j) = .ok ⟨200, st, b⟩ ∧ jsonDecode b = .ok r ∧
      req = requestFor token sq (some r.Data.Search.PageInfo.EndCursor) := by
  induction reqs generalizing k cur j with
  | nil => simp at hreq
  | cons a rest ih =>
    rw [List.getElem?_cons_succ] at hreq
    rcases h.2 with hnil | ⟨st, b, r, hs, hb, hrest⟩
    · subst hnil
      simp at hreq
    · cases j with
      | zero => exact ⟨st, b, r, by simpa using hs, hb, chain_head hrest req hreq⟩
      | succ j =>
        obtain ⟨st2, b2, r2, h1, h2, h3⟩ := ih hrest j hreq
        exact ⟨st2, b2, r2, by rw [← h1]; congr 1; omega, h2, h3⟩

theorem chain_mem {token sq : String} {script : Nat → Except Cause Response} {k : Nat}
    {cur : Option String} {reqs : List Request} (h : Chain token sq script k cur reqs)
    (req : Request) (hreq : req ∈ reqs) : ∃ c, req = requestFor token sq c := by
  induction reqs generalizing k cur with
  | nil => simp at hreq
  | cons a rest ih =>
    rcases List.mem_cons.mp hreq with rfl | hmem
    · exact ⟨cur, h.1⟩
    · rcases h.2 with hnil | ⟨_, _, _, _, _, hrest⟩
      · subst hnil
        simp at hmem
      · exact ih hrest hmem

/-- The requests recorded by a run of `GetIssues` form a chain that starts
without a cursor. -/
theorem GetIssues_trace (token owner : String) (pn : Int) (since : Time) (ctx : Context)
    (fuel : Nat) (script : Nat → Except Cause Response) :
    Chain token (searchQuery owner pn since) script 0 none
      ((scripted token).GetIssues fuel (Net.start script) ctx owner pn since).net.sent := by
  obtain ⟨reqs, hnet, hchain⟩ := loop_trace token owner pn since ctx fuel (Net.start script) [] none
  simp only [Client.GetIssues, hnet]
  simpa [Net.start] using hchain

/-- With a non-nil context the loop does not return before it has sent a
request. -/
theorem loop_sends (token owner : String) (pn : Int) (since : Time) (fuel : Nat)
    (n : Net) (acc : List IssueNode) (cur : Option String) :
    (GetIssues.loop (scripted token) .live owner pn since fuel n acc cur).returned = none ∨
      n.sent.length <
        (GetIssues.loop (scripted token) .live owner pn since fuel n acc cur).net.sent.length := by
  induction fuel generalizing n acc cur with
  | zero => exact Or.inl rfl
  | succ fuel ih =>
    rw [loop_succ]
    cases hs : n.script n.sent.length with
    | error err => exact Or.inr (by simp [Net.after])
    | ok resp =>
      by_cases hc : resp.StatusCode = 200
      · cases hb : jsonDecode resp.Body with
        | error err => exact Or.inr (by simp [hc, hb, Net.after])
        | ok r =>
          by_cases hn : r.Data.Search.PageInfo.HasNextPage = true
          · simp only [hc, hb, hn, ne_eq, not_true_eq_false, if_false, Bool.not_true,
              Bool.false_eq_true]
            rcases ih (n.after (requestFor token (searchQuery owner pn since) cur))
              (acc ++ r.Data.Search.Nodes) (some r.Data.Search.PageInfo.EndCursor) with h | h
            · exact Or.inl h
            · refine Or.inr (lt_trans ?_ h)
              simp [Net.after]
          · exact Or.inr (by simp [hc, hb, hn, Net.after])
      · exact Or.inr (by simp [hc, Net.after])

/-- With a non-nil context an iteration of the loop sends its request. -/
theorem loop_grows (token owner : String) (pn : Int) (since : Time) (fuel : Nat)
    (n : Net) (acc : List IssueNode) (cur : Option String) :
    n.sent.length <
      (GetIssues.loop (scripted token) .live owner pn since (fuel + 1) n acc cur).net.sent.length := by
  rw [loop_succ]
  cases hs : n.script n.sent.length with
  | error err => simp [Net.after]
  | ok resp =>
    by_cases hc : resp.StatusCode = 200
    · cases hb : jsonDecode resp.Body with
      | error err => simp [hc, hb, Net.after]
      | ok r =>
        by_cases hn : r.Data.Search.PageInfo.HasNextPage = true
        · obtain ⟨reqs, hnet, _⟩ := loop_trace token owner pn since .live fuel
            (n.after (requestFor token (searchQuery owner pn since) cur))
            (acc ++ r.Data.Search.Nodes) (some r.Data.Search.PageInfo.EndCursor)
          simp only [hc, hb, hn, ne_eq, not_true_eq_false, if_false, Bool.not_true,
            Bool.false_eq_true, hnet]
          simp [Net.after]
        · simp [hc, hb, hn, Net.after]
    · simp [hc, Net.after]

/-- With a non-nil context the first request of the loop is the one for its
cursor. -/
theorem loop_first (token owner : String) (pn : Int) (since : Time) (fuel : Nat)
    (n : Net) (acc : List IssueNode) (cur : Option String) :
    ∃ reqs, (GetIssues.loop (scripted token) .live owner pn since (fuel + 1) n acc cur).net.sent =
      n.sent ++ requestFor token (searchQuery owner pn since) cur :: reqs := by
  obtain ⟨reqs, hnet, hchain⟩ := loop_trace token owner pn since .live (fuel + 1) n acc cur
  have hlen := loop_grows token owner pn since fuel n acc cur
  rw [hnet] at hlen
  cases reqs with
  | nil => simp at hlen
  | cons r rest =>
    have hr : r = requestFor token (searchQuery owner pn since) cur := hchain.1
    exact ⟨rest, by rw [hnet, hr]⟩

theorem cursorAfter_append (cur : Option String) (pages : List GraphQLResponse)
    (p : GraphQLResponse) :
    cursorAfter cur (pages ++ [p]) = some p.Data.Search.PageInfo.EndCursor := by
  induction pages generalizing cur with
  | nil => rfl
  | cons q qs ih => simpa [cursorAfter] using ih _

/-! ## Properties of `GetIssues`

Properties that speak of the responses to a call are stated for a non-nil
context: with a nil context no request is built and nothing is sent
(`loop_nil`). The properties of the requests hold for every context. -/

/-- C1. Against a service whose first `N = pages.length + 1` answers are
responses with status 200 and decodable bodies, the first `N - 1` reporting
`hasNextPage = true` and the last one `hasNextPage = false`, `GetIssues`
(called with a non-nil context and given at least `N` iterations) returns no
error and exactly the node lists of the `N` pages one after the other, in
order and with duplicates kept. -/
theorem GetIssues_returns_all_pages (token owner : String) (pn : Int) (since : Time)
    (script : Nat → Except Cause Response) (pages : List GraphQLResponse)
    (last : GraphQLResponse) (fuel : Nat)
    (hmore : ServesMore script 0 pages)
    (hlast : Delivers (script pages.length) last)
    (hstop : last.Data.Search.PageInfo.HasNextPage = false)
    (hfuel : pages.length + 1 ≤ fuel) :
    ((scripted token).GetIssues fuel (Net.start script) .live owner pn since).returned =
      some (nodesOf (pages ++ [last]), none) := by
  obtain ⟨m, rfl⟩ : ∃ m, fuel = pages.length + (m + 1) := ⟨fuel - (pages.length + 1), by omega⟩
  obtain ⟨st, b, hs, hb⟩ := hlast
  rw [GetIssues_next token owner pn since m script pages hmore, hs]
  simp [hb, hstop, nodesOf_append, nodesOf_singleton]

/-- C6. Against a service whose answers have status 200 and decodable bodies
and whose answer number `k = pages.length + 1` is the first to report
`hasNextPage = false`, `GetIssues` returns after exactly `k` calls of `Do`,
whatever `endCursor` that last page carries, and returns the nodes of the `k`
pages. -/
theorem GetIssues_stops_at_last_page (token owner : String) (pn : Int) (since : Time)
    (script : Nat → Except Cause Response) (pages : List GraphQLResponse)
    (last : GraphQLResponse) (fuel : Nat)
    (hmore : ServesMore script 0 pages)
    (hlast : Delivers (script pages.length) last)
    (hstop : last.Data.Search.PageInfo.HasNextPage = false)
    (hfuel : pages.length + 1 ≤ fuel) :
    ((scripted token).GetIssues fuel (Net.start script) .live owner pn since).returned =
        some (nodesOf pages ++ last.Data.Search.Nodes, none) ∧
      ((scripted token).GetIssues fuel (Net.start script) .live owner pn since).net.sent.length =
        pages.length + 1 := by
  obtain ⟨m, rfl⟩ : ∃ m, fuel = pages.length + (m + 1) := ⟨fuel - (pages.length + 1), by omega⟩
  obtain ⟨st, b, hs, hb⟩ := hlast
  rw [GetIssues_next token owner pn since m script pages hmore, hs]
  simp [hb, hstop, after_length, fetched_length]

/-- C4. After `k - 1` pages fetched with success, each announcing a next page,
a response to request `k` whose status code is not a success code (not in
200..299) makes `GetIssues` return a nil issue list and a non-nil error, the
status error; the nodes of the earlier pages are not returned, and the
outcome is the same whatever the body of that response is. -/
theorem GetIssues_non_success_status (token owner : String) (pn : Int) (since : Time)
    (script : Nat → Except Cause Response) (pages : List GraphQLResponse)
    (code : Int) (status : String) (body : Body) (fuel : Nat)
    (hmore : ServesMore script 0 pages)
    (hresp : script pages.length = .ok ⟨code, status, body⟩)
    (hcode : ¬ (200 ≤ code ∧ code ≤ 299))
    (hfuel : pages.length + 1 ≤ fuel) :
    ((scripted token).GetIssues fuel (Net.start script) .live owner pn since).returned =
      some ([], some (.plain ("github api returned non-200 status: " ++ status))) := by
  obtain ⟨m, rfl⟩ : ∃ m, fuel = pages.length + (m + 1) := ⟨fuel - (pages.length + 1), by omega⟩
  have hne : code ≠ 200 := by omega
  rw [GetIssues_next token owner pn since m script pages hmore, hresp]
  simp [hne]

/-- C7. After `k - 1` pages fetched with success, a failure `err` of the
transport for request `k` (such as the one a cancelled context causes) makes
`GetIssues` return a nil issue list and the error with context "failed to
execute http request" wrapping `err`, and request `k` is the last request it
sends. -/
theorem GetIssues_transport_error (token owner : String) (pn : Int) (since : Time)
    (script : Nat → Except Cause Response) (pages : List GraphQLResponse)
    (err : Cause) (fuel : Nat)
    (hmore : ServesMore script 0 pages)
    (hresp : script pages.length = .error err)
    (hfuel : pages.length + 1 ≤ fuel) :
    ((scripted token).GetIssues fuel (Net.start script) .live owner pn since).returned =
        some ([], some (.wrap "failed to execute http request" err)) ∧
      ((scripted token).GetIssues fuel (Net.start script) .live owner pn since).net.sent.length =
        pages.length + 1 := by
  obtain ⟨m, rfl⟩ : ∃ m, fuel = pages.length + (m + 1) := ⟨fuel - (pages.length + 1), by omega⟩
  rw [GetIssues_next token owner pn since m script pages hmore, hresp]
  simp [after_length, fetched_length]

/-- C2. In every run of `GetIssues` the first request gives the variable
`cursor` the value `null`, and every later request, number `k + 1`, was sent
after response `k` came with status 200 and a body that decoded, and gives
`cursor` the string `endCursor` decoded from that response `k`. These
requests are sent: with a non-nil context and at least one iteration there is
a first request, and when the responses up to number `k` are pages that
announce a next page, and at least `k + 2` iterations are given, there is a
request number `k + 1`, with the `endCursor` of response `k`. (Requests and
responses are counted from 0 here.) -/
theorem GetIssues_cursor_of_each_request (token owner : String) (pn : Int) (since : Time)
    (ctx : Context) (fuel : Nat) (script : Nat → Except Cause Response) :
    (∀ req,
        ((scripted token).GetIssues fuel (Net.start script) ctx owner pn since).net.sent[0]? =
          some req →
        req.variable "cursor" = some .null) ∧
      (∀ k req,
        ((scripted token).GetIssues fuel (Net.start script) ctx owner pn since).net.sent[k + 1]? =
          some req →
        ∃ st b r, script k = .ok ⟨200, st, b⟩ ∧ jsonDecode b = .ok r ∧
          req.variable "cursor" = some (.string r.Data.Search.PageInfo.EndCursor)) ∧
      (ctx = .live → 1 ≤ fuel →
        ∃ req,
          ((scripted token).GetIssues fuel (Net.start script) ctx owner pn since).net.sent[0]? =
            some req ∧
          req.variable "cursor" = some .null) ∧
      (ctx = .live → ∀ pages p, ServesMore script 0 (pages ++ [p]) → pages.length + 2 ≤ fuel →
        ∃ req,
          ((scripted token).GetIssues fuel (Net.start script) ctx owner pn since).net.sent[
            pages.length + 1]? = some req ∧
          req.variable "cursor" = some (.string p.Data.Search.PageInfo.EndCursor)) := by
  have h := GetIssues_trace token owner pn since ctx fuel script
  refine ⟨?_, ?_, ?_, ?_⟩
  · intro req hreq
    rw [chain_head h req hreq]
    rfl
  · intro k req hreq
    obtain ⟨st, b, r, hs, hb, hr⟩ := chain_next h k req hreq
    refine ⟨st, b, r, by simpa using hs, hb, ?_⟩
    rw [hr]
    rfl
  · intro hctx hfuel
    subst hctx
    obtain ⟨m, rfl⟩ : ∃ m, fuel = m + 1 := ⟨fuel - 1, by omega⟩
    obtain ⟨reqs, hreqs⟩ := loop_first token owner pn since m (Net.start script) [] none
    refine ⟨requestFor token (searchQuery owner pn since) none, ?_, rfl⟩
    simp only [Client.GetIssues, hreqs]
    simp [Net.start]
  · intro hctx pages p hserve hfuel
    subst hctx
    obtain ⟨m, rfl⟩ : ∃ m, fuel = (pages ++ [p]).length + (m + 1) :=
      ⟨fuel - (pages.length + 2), by simp; omega⟩
    rw [GetIssues_after_pages token owner pn since (m + 1) script (pages ++ [p]) hserve]
    obtain ⟨reqs, hreqs⟩ := loop_first token owner pn since m
      (Net.fetched script token (searchQuery owner pn since) (pages ++ [p]))
      (nodesOf (pages ++ [p])) (cursorAfter none (pages ++ [p]))
    refine ⟨requestFor token (searchQuery owner pn since)
      (some p.Data.Search.PageInfo.EndCursor), ?_, rfl⟩
    rw [hreqs, cursorAfter_append]
    have hlen : (Net.fetched script token (searchQuery owner pn since) (pages ++ [p])).sent.length =
        pages.length + 1 := by
      simp [fetched_length]
    rw [List.getElem?_append_right (by omega), hlen]
    simp

/-- C9. Every request sent during a run of `GetIssues` is a POST to
`https://api.github.com/graphql` with exactly the headers `Authorization`,
of value "bearer " followed by the token, and `Content-Type`, of value
`application/json`, and its body is a JSON object with exactly the members
`query`, the fixed query text, and `variables`, an object with exactly the
members `cursor`, `null` or a string, and `searchQuery`, the search filter
string of the call: the requests of a run differ in the cursor only. -/
theorem GetIssues_request_shape (token owner : String) (pn : Int) (since : Time)
    (ctx : Context) (fuel : Nat) (script : Nat → Except Cause Response) (req : Request)
    (hreq : req ∈ ((scripted token).GetIssues fuel (Net.start script) ctx owner pn since).net.sent) :
    req.Method = "POST" ∧ req.URL = "https://api.github.com/graphql" ∧
      req.Header = [("Authorization", "bearer " ++ token), ("Content-Type", "application/json")] ∧
      ∃ cursor, (cursor = Encoded.null ∨ ∃ c, cursor = Encoded.string c) ∧
        req.Body = .object
          [("query", .string getIssuesQuery),
           ("variables", .object
              [("cursor", cursor), ("searchQuery", .string (searchQuery owner pn since))])] := by
  obtain ⟨c, rfl⟩ := chain_mem (GetIssues_trace token owner pn since ctx fuel script) req hreq
  refine ⟨rfl, rfl, rfl, marshalAny (.stringPtr c), ?_, rfl⟩
  cases c with
  | none => exact Or.inl rfl
  | some c => exact Or.inr ⟨c, rfl⟩

/-- C10. After `k - 1` pages fetched with success, `GetIssues` ends at
response `k` with a nil issue list and the error whose message is "github api
returned non-200 status: " followed by the status text of that response if
and only if the status code of the response is not 200, codes 201..299
included; the body of the response has no part in this. -/
theorem GetIssues_status_check (token owner : String) (pn : Int) (since : Time)
    (script : Nat → Except Cause Response) (pages : List GraphQLResponse)
    (code : Int) (status : String) (body : Body) (fuel : Nat)
    (hmore : ServesMore script 0 pages)
    (hresp : script pages.length = .ok ⟨code, status, body⟩)
    (hfuel : pages.length + 1 ≤ fuel) :
    (((scripted token).GetIssues fuel (Net.start script) .live owner pn since).returned =
          some ([], some (.plain ("github api returned non-200 status: " ++ status))) ∧
        ((scripted token).GetIssues fuel (Net.start script) .live owner pn since).net.sent.length =
          pages.length + 1) ↔
      code ≠ 200 := by
  obtain ⟨m, rfl⟩ : ∃ m, fuel = pages.length + (m + 1) := ⟨fuel - (pages.length + 1), by omega⟩
  rw [GetIssues_next token owner pn since m script pages hmore, hresp]
  by_cases hc : code = 200
  · subst hc
    simp only [ne_eq, not_true_eq_false, if_false, iff_false, not_and]
    cases hb : jsonDecode body with
    | error err => simp
    | ok r =>
      by_cases hn : r.Data.Search.PageInfo.HasNextPage = true
      · simp only [hn, Bool.not_true, Bool.false_eq_true, if_false]
        intro hret
        rcases loop_sends token owner pn since m
          ((Net.fetched script token (searchQuery owner pn since) pages).after
            (requestFor token (searchQuery owner pn since) (cursorAfter none pages)))
          (nodesOf pages ++ r.Data.Search.Nodes) (some r.Data.Search.PageInfo.EndCursor) with h | h
        · rw [h] at hret
          exact absurd hret (by simp)
        · rw [after_length, fetched_length] at h
          omega
      · simp [hn]
  · simp [hc, after_length, fetched_length]


/-! ## The decoder on values of the wrong kind -/

theorem decodeMembers_clash {α : Type} (setField : α → List Char → JSON → Except Cause α)
    (bad : List Char → JSON → Bool)
    (hbad : ∀ cur name v, bad name v = true → setField cur name v = .error .unmarshal)
    (hok : ∀ cur name v, bad name v = false → ∃ next, setField cur name v = .ok next)
    (ms : List (String × JSON)) (h : (ms.any fun kv => bad (foldName kv.1) kv.2) = true)
    (cur : α) : decodeMembers setField cur ms = .error .unmarshal := by
  induction ms generalizing cur with
  | nil => simp at h
  | cons kv ms ih =>
    cases hb : bad (foldName kv.1) kv.2 with
    | true => simp [decodeMembers, hbad cur _ _ hb, bind, Except.bind]
    | false =>
      obtain ⟨next, hnext⟩ := hok cur _ _ hb
      have hrest : (ms.any fun kv => bad (foldName kv.1) kv.2) = true := by
        simpa [List.any_cons, hb] using h
      simpa [decodeMembers, hnext, bind, Except.bind] using ih hrest next

theorem decodeMembers_ok {α : Type} (setField : α → List Char → JSON → Except Cause α)
    (bad : List Char → JSON → Bool)
    (hok : ∀ cur name v, bad name v = false → ∃ next, setField cur name v = .ok next)
    (ms : List (String × JSON)) (h : (ms.any fun kv => bad (foldName kv.1) kv.2) = false)
    (cur : α) : ∃ r, decodeMembers setField cur ms = .ok r := by
  induction ms generalizing cur with
  | nil => exact ⟨cur, rfl⟩
  | cons kv ms ih =>
    rw [List.any_cons, Bool.or_eq_false_iff] at h
    obtain ⟨next, hnext⟩ := hok cur _ _ h.1
    obtain ⟨r, hr⟩ := ih h.2 next
    exact ⟨r, by simpa [decodeMembers, hnext, bind, Except.bind] using hr⟩

theorem decodeString_clash (cur : String) (v : JSON) (h : v.clashes JSON.isString = true) :
    decodeString cur v = .error .unmarshal := by
  cases v <;> simp_all [decodeString, JSON.clashes, JSON.isNull, JSON.isString]

theorem decodeString_ok (cur : String) (v : JSON) (h : v.clashes JSON.isString = false) :
    ∃ r, decodeString cur v = .ok r := by
  cases v <;> simp_all [decodeString, JSON.clashes, JSON.isNull, JSON.isString]

theorem decodeBool_clash (cur : Bool) (v : JSON) (h : v.clashes JSON.isBool = true) :
    decodeBool cur v = .error .unmarshal := by
  cases v <;> simp_all [decodeBool, JSON.clashes, JSON.isNull, JSON.isBool]

theorem decodeBool_ok (cur : Bool) (v : JSON) (h : v.clashes JSON.isBool = false) :
    ∃ r, decodeBool cur v = .ok r := by
  cases v <;> simp_all [decodeBool, JSON.clashes, JSON.isNull, JSON.isBool]

theorem decodeInt_clash (cur : Int) (v : JSON) (h : v.clashes JSON.isInt64 = true) :
    decodeInt cur v = .error .unmarshal := by
  cases v <;> simp_all [decodeInt, JSON.clashes, JSON.isNull, JSON.isInt64]
  intro h1
  omega

theorem decodeInt_ok (cur : Int) (v : JSON) (h : v.clashes JSON.isInt64 = false) :
    ∃ r, decodeInt cur v = .ok r := by
  cases v <;> simp_all [decodeInt, JSON.clashes, JSON.isNull, JSON.isInt64]

theorem decodeTime_clash (cur : Time) (v : JSON) (h : v.clashes JSON.isTimestamp = true) :
    decodeTime cur v = .error .unmarshal := by
  unfold decodeTime
  split <;> simp_all [JSON.clashes, JSON.isNull, JSON.isTimestamp]

theorem decodeTime_ok (cur : Time) (v : JSON) (h : v.clashes JSON.isTimestamp = false) :
    ∃ r, decodeTime cur v = .ok r := by
  unfold decodeTime
  split <;> simp_all [JSON.clashes, JSON.isNull, JSON.isTimestamp]

theorem map_error {α β : Type} (x : Except Cause α) (f : α → β) (h : x = .error .unmarshal) :
    (do let a ← x; pure (f a) : Except Cause β) = .error .unmarshal := by
  subst h
  rfl

theorem map_ok {α β : Type} (x : Except Cause α) (f : α → β) (h : ∃ r, x = .ok r) :
    ∃ r, (do let a ← x; pure (f a) : Except Cause β) = .ok r := by
  obtain ⟨r, rfl⟩ := h
  exact ⟨f r, rfl⟩

theorem pageInfo_setField_clash (cur : PageInfo) (name : List Char) (v : JSON)
    (h : pageInfoMemberClash name v = true) : cur.setField name v = .error .unmarshal := by
  have h12 : foldName "endCursor" ≠ foldName "hasNextPage" := by decide
  unfold PageInfo.setField
  unfold pageInfoMemberClash at h
  split
  · rename_i h1
    subst h1
    exact map_error _ _ (decodeString_clash _ _ (by simpa [h12] using h))
  · rename_i h1
    split
    · rename_i h2
      subst h2
      exact map_error _ _ (decodeBool_clash _ _ (by simpa [h1] using h))
    · rename_i h2
      simp [h1, h2] at h

theorem pageInfo_setField_ok (cur : PageInfo) (name : List Char) (v : JSON)
    (h : pageInfoMemberClash name v = false) : ∃ r, cur.setField name v = .ok r := by
  have h12 : foldName "endCursor" ≠ foldName "hasNextPage" := by decide
  unfold PageInfo.setField
  unfold pageInfoMemberClash at h
  split
  · rename_i h1
    subst h1
    exact map_ok _ _ (decodeString_ok _ _ (by simpa [h12] using h))
  · rename_i h1
    split
    · rename_i h2
      subst h2
      exact map_ok _ _ (decodeBool_ok _ _ (by simpa [h1] using h))
    · exact ⟨cur, rfl⟩

theorem decodePageInfo_clash (cur : PageInfo) (v : JSON) (h : pageInfoClash v = true) :
    decodePageInfo cur v = .error .unmarshal := by
  cases v with
  | obj ms =>
    exact decodeMembers_clash _ pageInfoMemberClash pageInfo_setField_clash pageInfo_setField_ok
      ms h cur
  | _ => simp_all [decodePageInfo, pageInfoClash]

theorem decodePageInfo_ok (cur : PageInfo) (v : JSON) (h : pageInfoClash v = false) :
    ∃ r, decodePageInfo cur v = .ok r := by
  cases v with
  | obj ms => exact decodeMembers_ok _ pageInfoMemberClash pageInfo_setField_ok ms h cur
  | _ => simp_all [decodePageInfo, pageInfoClash]

theorem issueNode_setField_clash (cur : IssueNode) (name : List Char) (v : JSON)
    (h : nodeMemberClash name v = true) : cur.setField name v = .error .unmarshal := by
  have h12 : foldName "number" ≠ foldName "title" := by decide
  have h13 : foldName "number" ≠ foldName "body" := by decide
  have h14 : foldName "number" ≠ foldName "updatedAt" := by decide
  have h23 : foldName "title" ≠ foldName "body" := by decide
  have h24 : foldName "title" ≠ foldName "updatedAt" := by decide
  have h34 : foldName "body" ≠ foldName "updatedAt" := by decide
  unfold IssueNode.setField
  unfold nodeMemberClash at h
  split
  · rename_i h1
    subst h1
    exact map_error _ _ (decodeInt_clash _ _ (by simpa [h12, h13, h14] using h))
  · rename_i h1
    split
    · rename_i h2
      subst h2
      exact map_error _ _ (decodeString_clash _ _ (by simpa [h1, h23, h24] using h))
    · rename_i h2
      split
      · rename_i h3
        subst h3
        exact map_error _ _ (decodeString_clash _ _ (by simpa [h1, h2, h34] using h))
      · rename_i h3
        split
        · rename_i h4
          subst h4
          exact map_error _ _ (decodeTime_clash _ _ (by simpa [h1, h2, h3] using h))
        · rename_i h4
          simp [h1, h2, h3, h4] at h

theorem issueNode_setField_ok (cur : IssueNode) (name : List Char) (v : JSON)
    (h : nodeMemberClash name v = false) : ∃ r, cur.setField name v = .ok r := by
  have h12 : foldName "number" ≠ foldName "title" := by decide
  have h13 : foldName "number" ≠ foldName "body" := by decide
  have h14 : foldName "number" ≠ foldName "updatedAt" := by decide
  have h23 : foldName "title" ≠ foldName "body" := by decide
  have h24 : foldName "title" ≠ foldName "updatedAt" := by decide
  have h34 : foldName "body" ≠ foldName "updatedAt" := by decide
  unfold IssueNode.setField
  unfold nodeMemberClash at h
  split
  · rename_i h1
    subst h1
    exact map_ok _ _ (decodeInt_ok _ _ (by simpa [h12, h13, h14] using h))
  · rename_i h1
    split
    · rename_i h2
      subst h2
      exact map_ok _ _ (decodeString_ok _ _ (by simpa [h1, h23, h24] using h))
    · rename_i h2
      split
      · rename_i h3
        subst h3
        exact map_ok _ _ (decodeString_ok _ _ (by simpa [h1, h2, h34] using h))
      · rename_i h3
        split
        · rename_i h4
          subst h4
          exact map_ok _ _ (decodeTime_ok _ _ (by simpa [h1, h2, h3] using h))
        · exact ⟨cur, rfl⟩

theorem decodeIssueNode_clash (cur : IssueNode) (v : JSON) (h : nodeClash v = true) :
    decodeIssueNode cur v = .error .unmarshal := by
  cases v with
  | obj ms =>
    exact decodeMembers_clash _ nodeMemberClash issueNode_setField_clash issueNode_setField_ok
      ms h cur
  | _ => simp_all [decodeIssueNode, nodeClash]

theorem decodeIssueNode_ok (cur : IssueNode) (v : JSON) (h : nodeClash v = false) :
    ∃ r, decodeIssueNode cur v = .ok r := by
  cases v with
  | obj ms => exact decodeMembers_ok _ nodeMemberClash issueNode_setField_ok ms h cur
  | _ => simp_all [decodeIssueNode, nodeClash]

theorem decodeElems_clash (vs : List JSON) (h : vs.any nodeClash = true)
    (slots : List IssueNode) : decodeElems vs slots = .error .unmarshal := by
  induction vs generalizing slots with
  | nil => simp at h
  | cons v vs ih =>
    cases hb : nodeClash v with
    | true => simp [decodeElems, decodeIssueNode_clash _ v hb, bind, Except.bind]
    | false =>
      obtain ⟨n, hn⟩ := decodeIssueNode_ok (slots.headD IssueNode.zero) v hb
      have hrest : vs.any nodeClash = true := by simpa [List.any_cons, hb] using h
      rw [decodeElems, hn, ih hrest]
      rfl

theorem decodeElems_ok (vs : List JSON) (h : vs.any nodeClash = false)
    (slots : List IssueNode) : ∃ r, decodeElems vs slots = .ok r := by
  induction vs generalizing slots with
  | nil => exact ⟨[], rfl⟩
  | cons v vs ih =>
    rw [List.any_cons, Bool.or_eq_false_iff] at h
    obtain ⟨n, hn⟩ := decodeIssueNode_ok (slots.headD IssueNode.zero) v h.1
    obtain ⟨ns, hns⟩ := ih h.2 slots.tail
    refine ⟨n :: ns, ?_⟩
    rw [decodeElems, hn, hns]
    rfl

theorem decodeNodes_clash (cur : List IssueNode × List IssueNode) (v : JSON)
    (h : nodesClash v = true) : decodeNodes cur v = .error .unmarshal := by
  cases v with
  | arr vs =>
    cases vs with
    | nil => simp [nodesClash] at h
    | cons v vs =>
      simp only [decodeNodes]
      exact map_error _ _ (decodeElems_clash _ h _)
  | _ => simp_all [decodeNodes, nodesClash]

theorem decodeNodes_ok (cur : List IssueNode × List IssueNode) (v : JSON)
    (h : nodesClash v = false) : ∃ r, decodeNodes cur v = .ok r := by
  cases v with
  | arr vs =>
    cases vs with
    | nil => exact ⟨([], []), rfl⟩
    | cons v vs =>
      simp only [decodeNodes]
      exact map_ok _ _ (decodeElems_ok _ h _)
  | _ => simp_all [decodeNodes, nodesClash]

theorem search_setField_clash (cur : SearchResult × List IssueNode) (name : List Char)
    (v : JSON) (h : searchMemberClash name v = true) :
    SearchResult.setField cur name v = .error .unmarshal := by
  have h12 : foldName "nodes" ≠ foldName "pageInfo" := by decide
  unfold SearchResult.setField
  unfold searchMemberClash at h
  split
  · rename_i h1
    subst h1
    exact map_error _ _ (decodeNodes_clash _ _ (by simpa [h12] using h))
  · rename_i h1
    split
    · rename_i h2
      subst h2
      exact map_error _ _ (decodePageInfo_clash _ _ (by simpa [h1] using h))
    · rename_i h2
      simp [h1, h2] at h

theorem search_setField_ok (cur : SearchResult × List IssueNode) (name : List Char)
    (v : JSON) (h : searchMemberClash name v = false) :
    ∃ r, SearchResult.setField cur name v = .ok r := by
  have h12 : foldName "nodes" ≠ foldName "pageInfo" := by decide
  unfold SearchResult.setField
  unfold searchMemberClash at h
  split
  · rename_i h1
    subst h1
    exact map_ok _ _ (decodeNodes_ok _ _ (by simpa [h12] using h))
  · rename_i h1
    split
    · rename_i h2
      subst h2
      exact map_ok _ _ (decodePageInfo_ok _ _ (by simpa [h1] using h))
    · exact ⟨cur, rfl⟩

theorem decodeSearchResult_clash (cur : SearchResult × List IssueNode) (v : JSON)
    (h : searchClash v = true) : decodeSearchResult cur v = .error .unmarshal := by
  cases v with
  | obj ms =>
    exact decodeMembers_clash _ searchMemberClash search_setField_clash search_setField_ok
      ms h cur
  | _ => simp_all [decodeSearchResult, searchClash]

theorem decodeSearchResult_ok (cur : SearchResult × List IssueNode) (v : JSON)
    (h : searchClash v = false) : ∃ r, decodeSearchResult cur v = .ok r := by
  cases v with
  | obj ms => exact decodeMembers_ok _ searchMemberClash search_setField_ok ms h cur
  | _ => simp_all [decodeSearchResult, searchClash]

theorem data_setField_clash (cur : GraphQLData × List IssueNode) (name : List Char)
    (v : JSON) (h : (name == foldName "search" && searchClash v) = true) :
    GraphQLData.setField cur name v = .error .unmarshal := by
  unfold GraphQLData.setField
  split
  · rename_i h1
    subst h1
    exact map_error _ _ (decodeSearchResult_clash _ _ (by simpa using h))
  · rename_i h1
    simp [h1] at h

theorem data_setField_ok (cur : GraphQLData × List IssueNode) (name : List Char)
    (v : JSON) (h : (name == foldName "search" && searchClash v) = false) :
    ∃ r, GraphQLData.setField cur name v = .ok r := by
  unfold GraphQLData.setField
  split
  · rename_i h1
    subst h1
    exact map_ok _ _ (decodeSearchResult_ok _ _ (by simpa using h))
  · exact ⟨cur, rfl⟩

theorem decodeData_clash (cur : GraphQLData × List IssueNode) (v : JSON)
    (h : dataClash v = true) : decodeData cur v = .error .unmarshal := by
  cases v with
  | obj ms =>
    exact decodeMembers_clash _ (fun name v => name == foldName "search" && searchClash v)
      data_setField_clash data_setField_ok ms h cur
  | _ => simp_all [decodeData, dataClash]

theorem decodeData_ok (cur : GraphQLData × List IssueNode) (v : JSON)
    (h : dataClash v = false) : ∃ r, decodeData cur v = .ok r := by
  cases v with
  | obj ms =>
    exact decodeMembers_ok _ (fun name v => name == foldName "search" && searchClash v)
      data_setField_ok ms h cur
  | _ => simp_all [decodeData, dataClash]

theorem response_setField_clash (cur : GraphQLResponse × List IssueNode) (name : List Char)
    (v : JSON) (h : (name == foldName "data" && dataClash v) = true) :
    GraphQLResponse.setField cur name v = .error .unmarshal := by
  unfold GraphQLResponse.setField
  split
  · rename_i h1
    subst h1
    exact map_error _ _ (decodeData_clash _ _ (by simpa using h))
  · rename_i h1
    simp [h1] at h

theorem response_setField_ok (cur : GraphQLResponse × List IssueNode) (name : List Char)
    (v : JSON) (h : (name == foldName "data" && dataClash v) = false) :
    ∃ r, GraphQLResponse.setField cur name v = .ok r := by
  unfold GraphQLResponse.setField
  split
  · rename_i h1
    subst h1
    exact map_ok _ _ (decodeData_ok _ _ (by simpa using h))
  · exact ⟨cur, rfl⟩

/-- A response value with a value of the wrong kind at a place of the expected
shape is rejected by the decoder. -/
theorem jsonDecode_clash (v : JSON) (rest : String) (h : shapeClash v = true) :
    jsonDecode (.value v rest) = .error .unmarshal := by
  have : decodeGraphQLResponse (GraphQLResponse.zero, []) v = .error .unmarshal := by
    cases v with
    | obj ms =>
      exact decodeMembers_clash _ (fun name v => name == foldName "data" && dataClash v)
        response_setField_clash response_setField_ok ms h _
    | _ => simp_all [decodeGraphQLResponse, shapeClash]
  simp [jsonDecode, this, bind, Except.bind]

/-- A response value without a value of the wrong kind is decoded, whatever
members it lacks. -/
theorem jsonDecode_ok (v : JSON) (rest : String) (h : shapeClash v = false) :
    ∃ r, jsonDecode (.value v rest) = .ok r := by
  have : ∃ r, decodeGraphQLResponse (GraphQLResponse.zero, []) v = .ok r := by
    cases v with
    | obj ms =>
      exact decodeMembers_ok _ (fun name v => name == foldName "data" && dataClash v)
        response_setField_ok ms h _
    | _ => simp_all [decodeGraphQLResponse, shapeClash]
  obtain ⟨r, hr⟩ := this
  exact ⟨r.1, by simp [jsonDecode, hr, bind, Except.bind, pure, Except.pure]⟩

/-! ## The example service -/

theorem servesMore_nil (script : Nat → Except Cause Response) (k : Nat) :
    ServesMore script k [] := by
  intro i p h
  simp at h

theorem servesMore_cons {script : Nat → Except Cause Response} {k : Nat} {p : GraphQLResponse}
    {ps : List GraphQLResponse} (hp : Delivers (script k) p)
    (hn : p.Data.Search.PageInfo.HasNextPage = true) (hps : ServesMore script (k + 1) ps) :
    ServesMore script k (p :: ps) := by
  intro i q hq
  cases i with
  | zero =>
    simp at hq
    subst hq
    exact ⟨hp, hn⟩
  | succ i =>
    have := hps i q (by simpa using hq)
    rwa [show k + (i + 1) = k + 1 + i by omega]

set_option maxRecDepth 100000 in
theorem firstPage_decodes : jsonDecode (.value firstPageJSON "") = .ok firstPage := by decide

theorem lastPage_decodes (rest : String) : jsonDecode (.value lastPageJSON rest) = .ok lastPage := by
  show jsonDecode (.value lastPageJSON "") = .ok lastPage
  decide

/-- A script that starts with the first example page serves it as a page with
a successor. -/
theorem serves_firstPage (rs : List (Except Cause Response)) :
    ServesMore (scriptOf (okResponse firstPageJSON :: rs)) 0 [firstPage] :=
  servesMore_cons ⟨"200 OK", .value firstPageJSON "", rfl, firstPage_decodes⟩ rfl
    (servesMore_nil _ _)

/-! ## Properties of the decoding step -/

/-- C5, as the code has it. After `k - 1` pages fetched with success, a
response `k` with status 200 from whose body no complete JSON value can be
read (the decoder reports `e`: a syntax error or the end of the input before
the first value is complete) makes `GetIssues` return a nil issue list,
without the nodes of the earlier pages, and the error with context "failed to
decode graphQL response" wrapping the decoder's error. -/
theorem GetIssues_unreadable_body (token owner : String) (pn : Int) (since : Time)
    (script : Nat → Except Cause Response) (pages : List GraphQLResponse)
    (status e : String) (fuel : Nat)
    (hmore : ServesMore script 0 pages)
    (hresp : script pages.length = .ok ⟨200, status, .invalid e⟩)
    (hfuel : pages.length + 1 ≤ fuel) :
    ((scripted token).GetIssues fuel (Net.start script) .live owner pn since).returned =
      some ([], some (.wrap "failed to decode graphQL response" (.msg e))) := by
  obtain ⟨m, rfl⟩ : ∃ m, fuel = pages.length + (m + 1) := ⟨fuel - (pages.length + 1), by omega⟩
  rw [GetIssues_next token owner pn since m script pages hmore, hresp]
  simp [jsonDecode]

theorem GetIssues_unreadable_body_witness :
    ServesMore (scriptOf [okResponse firstPageJSON, .ok ⟨200, "200 OK", .invalid "unexpected EOF"⟩])
        0 [firstPage] ∧
      ((scripted "secret").GetIssues 2
          (Net.start (scriptOf
            [okResponse firstPageJSON, .ok ⟨200, "200 OK", .invalid "unexpected EOF"⟩]))
          .live "acme" 7 newYearUTC).returned =
        some ([], some (.wrap "failed to decode graphQL response" (.msg "unexpected EOF"))) :=
  ⟨serves_firstPage _,
    GetIssues_unreadable_body "secret" "acme" 7 newYearUTC _ [firstPage] "200 OK"
      "unexpected EOF" 2 (serves_firstPage _) rfl (by decide)⟩

/-- C5 fails as stated: a body that consists of a complete page followed by
bytes that are no JSON is not well-formed JSON, and `GetIssues` returns the
nodes of that page and no error. -/
theorem trailing_bytes_are_not_rejected :
    (Body.value lastPageJSON "<html>").wellFormed = false ∧
      ((scripted "secret").GetIssues 1
          (Net.start (scriptOf [.ok ⟨200, "200 OK", .value lastPageJSON "<html>"⟩]))
          .live "acme" 7 newYearUTC).returned =
        some (List.replicate 3 (issueNode 2), none) := by
  constructor
  · decide
  · decide

/-- C8, as the code has it. After `k - 1` pages fetched with success, let
response `k` have status 200 and a body that holds the JSON value `v`. Then
`GetIssues` ends at response `k` with a nil issue list and the error with
context "failed to decode graphQL response" if and only if `v` has, at a
place of the shape
`data.search.(nodes[](number, title, body, updatedAt), pageInfo(endCursor, hasNextPage))`,
a value of the wrong JSON kind that is not `null`. A value that has no such
clash is decoded whatever members it lacks, the empty object included. -/
theorem GetIssues_wrong_kind (token owner : String) (pn : Int) (since : Time)
    (script : Nat → Except Cause Response) (pages : List GraphQLResponse)
    (status : String) (v : JSON) (rest : String) (fuel : Nat)
    (hmore : ServesMore script 0 pages)
    (hresp : script pages.length = .ok ⟨200, status, .value v rest⟩)
    (hfuel : pages.length + 1 ≤ fuel) :
    (((scripted token).GetIssues fuel (Net.start script) .live owner pn since).returned =
          some ([], some (.wrap "failed to decode graphQL response" .unmarshal)) ∧
        ((scripted token).GetIssues fuel (Net.start script) .live owner pn since).net.sent.length =
          pages.length + 1) ↔
      shapeClash v = true := by
  obtain ⟨m, rfl⟩ : ∃ m, fuel = pages.length + (m + 1) := ⟨fuel - (pages.length + 1), by omega⟩
  rw [GetIssues_next token owner pn since m script pages hmore, hresp]
  cases hc : shapeClash v with
  | true => simp [jsonDecode_clash v rest hc, after_length, fetched_length]
  | false =>
    obtain ⟨r, hr⟩ := jsonDecode_ok v rest hc
    simp only [ne_eq, not_true_eq_false, if_false, hr, Bool.false_eq_true, iff_false, not_and]
    by_cases hn : r.Data.Search.PageInfo.HasNextPage = true
    · simp only [hn, Bool.not_true, Bool.false_eq_true, if_false]
      intro hret
      rcases loop_sends token owner pn since m
        ((Net.fetched script token (searchQuery owner pn since) pages).after
          (requestFor token (searchQuery owner pn since) (cursorAfter none pages)))
        (nodesOf pages ++ r.Data.Search.Nodes) (some r.Data.Search.PageInfo.EndCursor) with h | h
      · rw [h] at hret
        exact absurd hret (by simp)
      · rw [after_length, fetched_length] at h
        omega
    · simp [hn]

theorem GetIssues_wrong_kind_witness :
    ServesMore (scriptOf [okResponse firstPageJSON, okResponse numberAsNodeJSON]) 0 [firstPage] ∧
      shapeClash numberAsNodeJSON = true ∧
      ((scripted "secret").GetIssues 2
          (Net.start (scriptOf [okResponse firstPageJSON, okResponse numberAsNodeJSON]))
          .live "acme" 7 newYearUTC).returned =
        some ([], some (.wrap "failed to decode graphQL response" .unmarshal)) :=
  ⟨serves_firstPage _, by decide,
    ((GetIssues_wrong_kind "secret" "acme" 7 newYearUTC
      (scriptOf [okResponse firstPageJSON, okResponse numberAsNodeJSON]) [firstPage] "200 OK"
      numberAsNodeJSON "" 2 (serves_firstPage _) rfl (by decide)).mpr (by decide)).1⟩

/-- C8 fails as stated: the empty JSON object, and an object whose only member
is `errors`, are well-formed JSON without the expected members, and on either
of them as the body of a response with status 200 `GetIssues` returns an
empty issue list and no error. -/
theorem missing_members_are_not_rejected :
    (Body.value (.obj []) "").wellFormed = true ∧
      ((scripted "secret").GetIssues 1 (Net.start (scriptOf [okResponse (.obj [])]))
          .live "acme" 7 newYearUTC).returned = some ([], none) ∧
      (Body.value (.obj [("errors", .arr [.obj [("message", .str "boom" none)]])]) "").wellFormed =
        true ∧
      ((scripted "secret").GetIssues 1
          (Net.start (scriptOf
            [okResponse (.obj [("errors", .arr [.obj [("message", .str "boom" none)]])])]))
          .live "acme" 7 newYearUTC).returned = some ([], none) := by
  refine ⟨by decide, by decide, by decide, by decide⟩

/-! ## The search filter -/

/-- C3. For `since` = 2023-01-01T00:00:00+08:00, the instant
2022-12-31T16:00:00Z, the search filter that `GetIssues` builds ends in
`updated:>=2023-01-01T00:00:00Z`: the clock reading of the zone of `since`
under the mark of UTC, where the claim has the rendering of the instant in
UTC, `2022-12-31T16:00:00Z`. -/
theorem searchQuery_keeps_local_clock :
    searchQuery "acme" 7 ⟨1672502400, 0, 28800⟩ =
        "is:issue is:open project:acme/7 updated:>=2023-01-01T00:00:00Z" ∧
      (Time.UTC ⟨1672502400, 0, 28800⟩).Format = "2022-12-31T16:00:00Z" := by
  constructor
  · decide
  · decide

/-! ## The properties on the example service -/

theorem GetIssues_cursor_of_each_request_witness :
    (∃ req,
        ((scripted "secret").GetIssues 2
            (Net.start (scriptOf [okResponse firstPageJSON, okResponse lastPageJSON]))
            .live "acme" 7 newYearUTC).net.sent[0]? = some req ∧
          req.variable "cursor" = some .null) ∧
      (∃ req,
        ((scripted "secret").GetIssues 2
            (Net.start (scriptOf [okResponse firstPageJSON, okResponse lastPageJSON]))
            .live "acme" 7 newYearUTC).net.sent[1]? = some req ∧
          req.variable "cursor" = some (.string "Y3Vyc29yOjEwMA==")) :=
  ⟨(GetIssues_cursor_of_each_request "secret" "acme" 7 newYearUTC .live 2
      (scriptOf [okResponse firstPageJSON, okResponse lastPageJSON])).2.2.1 rfl (by decide),
    (GetIssues_cursor_of_each_request "secret" "acme" 7 newYearUTC .live 2
      (scriptOf [okResponse firstPageJSON, okResponse lastPageJSON])).2.2.2 rfl [] firstPage
      (serves_firstPage _) (by decide)⟩

theorem GetIssues_returns_all_pages_witness :
    ServesMore (scriptOf [okResponse firstPageJSON, okResponse lastPageJSON]) 0 [firstPage] ∧
      Delivers (scriptOf [okResponse firstPageJSON, okResponse lastPageJSON] 1) lastPage ∧
      ((scripted "secret").GetIssues 2
          (Net.start (scriptOf [okResponse firstPageJSON, okResponse lastPageJSON]))
          .live "acme" 7 newYearUTC).returned =
        some (nodesOf ([firstPage] ++ [lastPage]), none) :=
  ⟨serves_firstPage _, ⟨"200 OK", .value lastPageJSON "", rfl, lastPage_decodes ""⟩,
    GetIssues_returns_all_pages "secret" "acme" 7 newYearUTC _ [firstPage] lastPage 2
      (serves_firstPage _) ⟨"200 OK", .value lastPageJSON "", rfl, lastPage_decodes ""⟩ rfl
      (by decide)⟩

theorem GetIssues_stops_at_last_page_witness :
    (((scripted "secret").GetIssues 5
            (Net.start (scriptOf [okResponse firstPageJSON, okResponse lastPageJSON]))
            .live "acme" 7 newYearUTC).returned =
          some (nodesOf [firstPage] ++ lastPage.Data.Search.Nodes, none) ∧
        ((scripted "secret").GetIssues 5
            (Net.start (scriptOf [okResponse firstPageJSON, okResponse lastPageJSON]))
            .live "acme" 7 newYearUTC).net.sent.length = 2) ∧
      (nodesOf [firstPage] ++ lastPage.Data.Search.Nodes).length = 103 :=
  ⟨GetIssues_stops_at_last_page "secret" "acme" 7 newYearUTC _ [firstPage] lastPage 5
      (serves_firstPage _) ⟨"200 OK", .value lastPageJSON "", rfl, lastPage_decodes ""⟩ rfl
      (by decide),
    by decide⟩

theorem GetIssues_non_success_status_witness :
    ¬ (200 ≤ (502 : Int) ∧ (502 : Int) ≤ 299) ∧
      ((scripted "secret").GetIssues 2
          (Net.start (scriptOf
            [okResponse firstPageJSON, .ok ⟨502, "502 Bad Gateway", .value lastPageJSON ""⟩]))
          .live "acme" 7 newYearUTC).returned =
        some ([], some (.plain ("github api returned non-200 status: " ++ "502 Bad Gateway"))) :=
  ⟨by decide,
    GetIssues_non_success_status "secret" "acme" 7 newYearUTC _ [firstPage] 502
      "502 Bad Gateway" (.value lastPageJSON "") 2 (serves_firstPage _) rfl (by decide)
      (by decide)⟩

theorem GetIssues_transport_error_witness :
    ((scripted "secret").GetIssues 2
          (Net.start (scriptOf [okResponse firstPageJSON, .error (.msg "context canceled")]))
          .live "acme" 7 newYearUTC).returned =
        some ([], some (.wrap "failed to execute http request" (.msg "context canceled"))) ∧
      ((scripted "secret").GetIssues 2
          (Net.start (scriptOf [okResponse firstPageJSON, .error (.msg "context canceled")]))
          .live "acme" 7 newYearUTC).net.sent.length = 2 :=
  GetIssues_transport_error "secret" "acme" 7 newYearUTC _ [firstPage] (.msg "context canceled") 2
    (serves_firstPage _) rfl (by decide)

theorem GetIssues_request_shape_witness :
    requestFor "secret" (searchQuery "acme" 7 newYearUTC) none ∈
        ((scripted "secret").GetIssues 1 (Net.start (scriptOf [okResponse lastPageJSON]))
          .live "acme" 7 newYearUTC).net.sent ∧
      (requestFor "secret" (searchQuery "acme" 7 newYearUTC) none).Header =
        [("Authorization", "bearer " ++ "secret"), ("Content-Type", "application/json")] :=
  have hmem : requestFor "secret" (searchQuery "acme" 7 newYearUTC) none ∈
      ((scripted "secret").GetIssues 1 (Net.start (scriptOf [okResponse lastPageJSON]))
        .live "acme" 7 newYearUTC).net.sent := by
    have h := GetIssues_next "secret" "acme" 7 newYearUTC 0 (scriptOf [okResponse lastPageJSON]) []
      (servesMore_nil _ _)
    simp only [List.length_nil, Nat.zero_add] at h
    rw [h]
    simp [scriptOf, okResponse, lastPage_decodes, lastPage, Net.after, Net.fetched, requestsFor,
      cursorAfter]
  ⟨hmem,
    (GetIssues_request_shape "secret" "acme" 7 newYearUTC .live 1
      (scriptOf [okResponse lastPageJSON]) _ hmem).2.2.1⟩

theorem GetIssues_status_check_witness :
    (((scripted "secret").GetIssues 2
            (Net.start (scriptOf
              [okResponse firstPageJSON, .ok ⟨201, "201 Created", .value lastPageJSON ""⟩]))
            .live "acme" 7 newYearUTC).returned =
          some ([], some (.plain ("github api returned non-200 status: " ++ "201 Created"))) ∧
        ((scripted "secret").GetIssues 2
            (Net.start (scriptOf
              [okResponse firstPageJSON, .ok ⟨201, "201 Created", .value lastPageJSON ""⟩]))
            .live "acme" 7 newYearUTC).net.sent.length = 2) ↔
      (201 : Int) ≠ 200 :=
  GetIssues_status_check "secret" "acme" 7 newYearUTC _ [firstPage] 201 "201 Created"
    (.value lastPageJSON "") 2 (serves_firstPage _) rfl (by decide)

end Issync
